import Mathlib

/-
Verification of the pilosa distributed query executor (`executor.go`)
against its natural-language specification.

The Go source is shallowly embedded: pure helpers become Lean functions,
fallible code returns `Except String`, Go panics are an explicit
constructor of `GoResult`, and the concurrent map/reduce engine is
modelled as a deterministic interpreter over an explicit response queue
(one admissible schedule of the Go channel), with outbound peer requests
recorded in an event list.  External collaborators (the `pql` package,
bitmap storage, `time.Parse`, `ViewsByTimeRange`) are modelled as
parameters or, where the spec pins them down, from the spec's words.
-/

set_option autoImplicit false

namespace PilosaExec

/-- Cluster member with a host identity (`Node` in the source). The Go code
compares nodes by pointer; cluster nodes have distinct hosts, so host
equality is a faithful stand-in. -/
structure Node where
  host : String
  deriving DecidableEq

/-- Execution options for a single `Execute` call; `Remote` is true iff this
invocation is a forwarded sub-query from another coordinator. -/
structure ExecOptions where
  Remote : Bool
  deriving DecidableEq

/-- Heterogeneous PQL argument values: the `interface{}` shapes the executor
inspects (int64, uint64, string, []int64, []uint64, []interface{}). -/
inductive Value where
  | int (i : Int)
  | uint (n : Nat)
  | str (s : String)
  | intList (l : List Int)
  | uintList (l : List Nat)
  | anyList (l : List Value)

/-- One node of the parsed query tree (`pql.Call`): operator name, named
arguments and ordered child calls. -/
inductive Call where
  | mk (name : String) (args : List (String × Value)) (children : List Call)

def Call.name : Call → String
  | .mk n _ _ => n

def Call.args : Call → List (String × Value)
  | .mk _ a _ => a

def Call.children : Call → List Call
  | .mk _ _ c => c

/-- A `(rowID, count)` pair returned by TopN. -/
structure Pair where
  rowID : Nat
  count : Nat
  deriving DecidableEq

/-- Opaque bitset of column positions.  The bitmap operations live in the
storage layer (out of scope for the spec); they are modelled as list-set
operations, which is all the executor claims depend on. -/
structure Bitmap where
  bits : List Nat
  deriving DecidableEq

def NewBitmap : Bitmap := ⟨[]⟩

def Bitmap.union (a b : Bitmap) : Bitmap := ⟨a.bits.union b.bits⟩

def Bitmap.intersect (a b : Bitmap) : Bitmap := ⟨a.bits.inter b.bits⟩

def Bitmap.difference (a b : Bitmap) : Bitmap := ⟨a.bits.diff b.bits⟩

/-- `Bitmap.InvalidateCount` only marks a cached popcount stale; it does not
change the bitmap contents, so it is the identity in the model. -/
def Bitmap.invalidateCount (b : Bitmap) : Bitmap := b

/-- Constants from the source (`executor.go` and package-level defaults). -/
def DefaultFrame : String := "general"

def MinThreshold : Nat := 1

/-- SliceWidth is a fixed cluster-uniform power of two (2^20 in the source). -/
def SliceWidth : Nat := 1048576

def ViewStandard : String := "standard"

def ViewInverse : String := "inverse"

/-- Modelled from the spec: package default labels used by `Execute` before a
frame/index is consulted. -/
def DefaultRowLabel : String := "rowID"

def DefaultColumnLabel : String := "columnID"

def ErrIndexRequired : String := "index required"

def ErrIndexNotFound : String := "index not found"

def ErrFrameNotFound : String := "frame not found"

/-- Marker error used by slice planning (`errSliceUnavailable`). -/
def errSliceUnavailable : String := "slice unavailable"

/-- Lookup of a named argument (`call.Args[key]`), first binding wins. -/
def argLookup : List (String × Value) → String → Option Value
  | [], _ => none
  | (k, v) :: rest, key => if k = key then some v else argLookup rest key

def Call.arg (c : Call) (key : String) : Option Value :=
  argLookup c.args key

/-- Go two-value string type assertion `s, ok := c.Args[key].(string)`:
yields the zero value `""` with `ok = false` when absent or not a string. -/
def argString (c : Call) (key : String) : String × Bool :=
  match c.arg key with
  | some (.str s) => (s, true)
  | _ => ("", false)

/-- Go conversion `uint64(v)` of an `int64`, as a natural number mod 2^64. -/
def toUint64 (i : Int) : Nat := (i % (2 : Int) ^ 64).toNat

/-- Go conversion `int(n)` of a `uint64`: two's-complement wrap, negative
for n ≥ 2^63. -/
def intOfUint64 (n : Nat) : Int :=
  if n < 2 ^ 63 then (n : Int) else (n : Int) - 2 ^ 64

/-- Modelled from the spec: `pql.Call.UintArg` (the `pql` package is outside
`src/`).  Accepts an int64 or uint64 argument; absent keys yield `ok=false`
(here `none`); other shapes are an error. -/
def Call.UintArg (c : Call) (key : String) : Except String (Option Nat) :=
  match c.arg key with
  | none => .ok none
  | some (.int i) => .ok (some (toUint64 i))
  | some (.uint n) => .ok (some n)
  | some _ => .error ("could not convert " ++ key ++ " to uint64")

/-- Modelled from the spec: `pql.Call.UintSliceArg`.  Accepts a []uint64 or
[]int64 argument (coerced element-wise); absent keys yield the empty list
(Go returns a nil slice); other shapes are an error. -/
def Call.UintSliceArg (c : Call) (key : String) : Except String (List Nat) :=
  match c.arg key with
  | none => .ok []
  | some (.uintList l) => .ok l
  | some (.intList l) => .ok (l.map toUint64)
  | some _ => .error ("unexpected type for " ++ key)

/-- Replace (or add) a named argument, preserving the other bindings:
`c.Args[key] = v`. -/
def updateArg : List (String × Value) → String → Value → List (String × Value)
  | [], key, v => [(key, v)]
  | (k0, v0) :: rest, key, v =>
      if k0 = key then (k0, v) :: rest else (k0, v0) :: updateArg rest key v

def Call.setArg (c : Call) (key : String) (v : Value) : Call :=
  .mk c.name (updateArg c.args key v) c.children

/-- Modelled from the spec: `pql.CopyArgs` followed by `delete(attrs, key)`. -/
def removeArg : List (String × Value) → String → List (String × Value)
  | [], _ => []
  | (k0, v0) :: rest, key =>
      if k0 = key then removeArg rest key else (k0, v0) :: removeArg rest key

/-- Result of running a Go function: normal value, returned error, or a
runtime panic (e.g. a failed single-value type assertion). -/
inductive GoResult (α : Type) where
  | ok (val : α)
  | err (msg : String)
  | panicked (msg : String)
  deriving DecidableEq

/-- Element-wise Go type assertion `v[i].(int64)` over a `[]interface{}`:
`none` when some element is not an int64, in which case Go panics. -/
def coerceIntList : List Value → Option (List Int)
  | [] => some []
  | .int i :: rest => (coerceIntList rest).map (fun l => i :: l)
  | _ :: _ => none

/-- `validateCallArgs` from `executor.go`: normalizes the `ids` argument.
`[]int64` and `[]uint64` pass unchanged; a `[]interface{}` is coerced
element-wise with the unchecked assertion `v[i].(int64)` (panic on any
non-int64 element); any other shape returns an error. -/
def validateCallArgs (c : Call) : GoResult Call :=
  match c.arg "ids" with
  | none => .ok c
  | some (.intList _) => .ok c
  | some (.uintList _) => .ok c
  | some (.anyList l) =>
      match coerceIntList l with
      | some b => .ok (c.setArg "ids" (.intList b))
      | none => .panicked "interface conversion: interface is not int64"
  | some _ => .err "invalid call.Args[ids]"

/-- Index metadata consumed through the `Holder` interface. -/
structure Index where
  columnLabel : String
  maxSlice : Nat
  maxInverseSlice : Nat

/-- Frame metadata consumed through the `Holder` interface. -/
structure Frame where
  rowLabel : String
  inverseEnabled : Bool
  timeQuantum : String

/-- Options passed to `Fragment.Top`. -/
structure TopOptions where
  n : Nat
  src : Option Bitmap
  rowIDs : List Nat
  filterField : String
  filterValues : List Value
  minThreshold : Nat
  tanimotoThreshold : Nat

/-- The `(index, frame, view, slice)` storage object: row reads and top-N. -/
structure Fragment where
  row : Nat → Bitmap
  top : TopOptions → Except String (List Pair)

/-- Holder lookups consumed by the executor; `none` is Go `nil`. -/
structure Holder where
  indexFn : String → Option Index
  frameFn : String → String → Option Frame
  fragmentFn : String → String → String → Nat → Option Fragment

/-- Fixed environment of one per-slice evaluation: the holder, the index
name, and the external time helpers (`time.Parse` with the shared
`TimeFormat`, and `ViewsByTimeRange` from the repository's time package,
modelled from the spec as an opaque expansion of `[start, end]` under the
quantum granularity into view names). -/
structure SliceEnv where
  holder : Holder
  index : String
  parseTime : String → Option Nat
  viewsByTimeRange : Nat → Nat → String → List String

/-- The `frame` argument with its default: `frame, _ := c.Args["frame"].(string);
if frame == "" { frame = DefaultFrame }`. -/
def frameArgName (c : Call) : String :=
  let s := (argString c "frame").1
  if s = "" then DefaultFrame else s

/-- `executeBitmapSlice`: Bitmap(frame, row|col) for one slice.  Exactly one
of the row label or the column label must be given; the column form needs
inverse storage; a missing fragment yields the empty bitmap. -/
def executeBitmapSlice (env : SliceEnv) (c : Call) (slice : Nat) :
    Except String Bitmap :=
  match env.holder.indexFn env.index with
  | none => .error ErrIndexNotFound
  | some idx =>
    let columnLabel := idx.columnLabel
    let frame := frameArgName c
    match env.holder.frameFn env.index frame with
    | none => .error ErrFrameNotFound
    | some f =>
      let rowLabel := f.rowLabel
      match c.UintArg rowLabel, c.UintArg columnLabel with
      | .error _, _ => .error "Bitmap() error with arg for col or row"
      | _, .error _ => .error "Bitmap() error with arg for col or row"
      | .ok rowO, .ok colO =>
        if rowO.isSome && colO.isSome then
          .error "Bitmap() cannot specify both row and column values"
        else if !rowO.isSome && !colO.isSome then
          .error "Bitmap() must specify either row or column values"
        else
          match colO with
          | some colID =>
            if !f.inverseEnabled then
              .error "Bitmap() cannot retrieve columns unless inverse storage enabled"
            else
              match env.holder.fragmentFn env.index frame ViewInverse slice with
              | none => .ok NewBitmap
              | some frag => .ok (frag.row colID)
          | none =>
            match env.holder.fragmentFn env.index frame ViewStandard slice with
            | none => .ok NewBitmap
            | some frag => .ok (frag.row (rowO.getD 0))

/-- `executeRangeSlice`: Range(frame, row, start, end) for one slice.  The
source reads `end` but re-tests the `ok` flag of the `start` assertion
(`endTimeStr, _ := c.Args["end"].(string); if !ok`), so an absent `end`
slips through to the parse step; the model mirrors that flag reuse. -/
def executeRangeSlice (env : SliceEnv) (c : Call) (slice : Nat) :
    Except String Bitmap :=
  let frame := frameArgName c
  match env.holder.frameFn env.index frame with
  | none => .error ErrFrameNotFound
  | some f =>
    match c.UintArg f.rowLabel with
    | .error e => .error ("executeRangeSlice - reading row: " ++ e)
    | .ok rowO =>
      let rowID := rowO.getD 0
      let startPair := argString c "start"
      let ok := startPair.2
      if !ok then .error "Range() start time required"
      else
        match env.parseTime startPair.1 with
        | none => .error "cannot parse Range() start time"
        | some startTime =>
          let endStr := (argString c "end").1
          if !ok then .error "Range() end time required"
          else
            match env.parseTime endStr with
            | none => .error "cannot parse Range() end time"
            | some endTime =>
              if f.timeQuantum = "" then .ok ⟨[]⟩
              else
                .ok ((env.viewsByTimeRange startTime endTime f.timeQuantum).foldl
                  (fun bm view =>
                    match env.holder.fragmentFn env.index frame view slice with
                    | none => bm
                    | some frag => bm.union (frag.row rowID)) ⟨[]⟩)

mutual

/-- `executeBitmapCallSlice`: dispatch of a bitmap-producing call for one
slice by operator name. -/
def executeBitmapCallSlice (env : SliceEnv) (slice : Nat) :
    Call → Except String Bitmap
  | .mk nm args children =>
    if nm = "Bitmap" then executeBitmapSlice env (.mk nm args children) slice
    else if nm = "Difference" then
      match children with
      | [] => .error "empty Difference query is currently not supported"
      | c0 :: rest =>
        match executeBitmapCallSlice env slice c0 with
        | .error e => .error e
        | .ok first =>
          match bitmapFoldSlice env slice Bitmap.difference first rest with
          | .error e => .error e
          | .ok other => .ok other.invalidateCount
    else if nm = "Intersect" then
      match children with
      | [] => .error "empty Intersect query is currently not supported"
      | c0 :: rest =>
        match executeBitmapCallSlice env slice c0 with
        | .error e => .error e
        | .ok first =>
          match bitmapFoldSlice env slice Bitmap.intersect first rest with
          | .error e => .error e
          | .ok other => .ok other.invalidateCount
    else if nm = "Range" then executeRangeSlice env (.mk nm args children) slice
    else if nm = "Union" then
      match children with
      | [] => .ok (NewBitmap.invalidateCount)
      | c0 :: rest =>
        match executeBitmapCallSlice env slice c0 with
        | .error e => .error e
        | .ok first =>
          match bitmapFoldSlice env slice Bitmap.union first rest with
          | .error e => .error e
          | .ok other => .ok other.invalidateCount
    else .error ("unknown call: " ++ nm)

/-- The `for i, input := range c.Children` accumulation loop shared by
Difference/Intersect/Union (accumulator seeded with the first child). -/
def bitmapFoldSlice (env : SliceEnv) (slice : Nat)
    (op : Bitmap → Bitmap → Bitmap) (acc : Bitmap) :
    List Call → Except String Bitmap
  | [] => .ok acc
  | x :: xs =>
    match executeBitmapCallSlice env slice x with
    | .error e => .error e
    | .ok bm => bitmapFoldSlice env slice op (op acc bm) xs

end

/-- `executeTopNSlice`: one-slice TopN.  A missing fragment returns the
empty pair list (`nil, nil` in the source) before the threshold checks. -/
def executeTopNSlice (env : SliceEnv) (c : Call) (slice : Nat) :
    Except String (List Pair) :=
  match c.UintArg "n" with
  | .error e => .error ("executeTopNSlice: " ++ e)
  | .ok nO =>
  let field := (argString c "field").1
  match c.UintSliceArg "ids" with
  | .error e => .error ("executeTopNSlice: " ++ e)
  | .ok rowIDs =>
  match c.UintArg "threshold" with
  | .error e => .error ("executeTopNSlice: " ++ e)
  | .ok thO =>
  let filters := match c.arg "filters" with
                 | some (.anyList l) => l
                 | _ => []
  match c.UintArg "tanimotoThreshold" with
  | .error e => .error ("executeTopNSlice: " ++ e)
  | .ok tanO =>
  let srcR : Except String (Option Bitmap) :=
    match c.children with
    | [] => .ok none
    | [child] =>
      match executeBitmapCallSlice env slice child with
      | .error e => .error e
      | .ok bm => .ok (some bm)
    | _ => .error "TopN() can only have one input bitmap"
  match srcR with
  | .error e => .error e
  | .ok src =>
    let frame := frameArgName c
    match env.holder.fragmentFn env.index frame ViewStandard slice with
    | none => .ok []
    | some f =>
      let minThreshold := let t := thO.getD 0
                          if t = 0 then MinThreshold else t
      let tan := tanO.getD 0
      if 100 < tan then .error "Tanimoto Threshold is from 1 to 100 only"
      else f.top { n := nO.getD 0, src := src, rowIDs := rowIDs,
                   filterField := field, filterValues := filters,
                   minThreshold := minThreshold, tanimotoThreshold := tan }

/-- Ascending sort used on the phase-1 row ids (`sort.Sort(uint64Slice(ids))`). -/
def insertSorted (x : Nat) : List Nat → List Nat
  | [] => [x]
  | y :: ys => if x ≤ y then x :: y :: ys else y :: insertSorted x ys

def sortNats (l : List Nat) : List Nat := l.foldr insertSorted []

/-- `Pairs.Keys`: the row ids of a pair list, in order. -/
def pairKeys (pairs : List Pair) : List Nat := pairs.map Pair.rowID

/-- `executeTopN`: the two-phase TopN driver.  `topNSlices` stands for
`executeTopNSlices` (the mapReduce fan-out with the TopN map function, with
context, index, slices and options already applied); the second component
of the result logs each `executeTopNSlices` invocation, so the log has two
entries exactly when the exact-refetch phase 2 ran.  The truncation guard
is the source's `n != 0 && int(n) < len(trimmedList)` with `int(n)` the
wrapping int64 view of the uint64 `n`; when it fires, the slice expression
`trimmedList[0:n]` bounds-checks `n` against the slice capacity, so a
fired guard with `n` beyond the list (only possible when `int(n)` wrapped
negative, since Go lengths and capacities are below 2^63) is a run-time
panic. -/
def executeTopN (topNSlices : Call → Except String (List Pair))
    (opt : ExecOptions) (c : Call) :
    GoResult (List Pair) × List Call :=
  match c.UintSliceArg "ids" with
  | .error e => (.err ("executeTopN: " ++ e), [])
  | .ok rowIDs =>
  match c.UintArg "n" with
  | .error e => (.err ("executeTopN: " ++ e), [])
  | .ok nO =>
  let n := nO.getD 0
  match topNSlices c with
  | .error e => (.err e, [c])
  | .ok pairs =>
    if pairs.length = 0 || 0 < rowIDs.length || opt.Remote then (.ok pairs, [c])
    else
      let ids := sortNats (pairKeys pairs)
      let other := c.setArg "ids" (.uintList ids)
      match topNSlices other with
      | .error e => (.err e, [c, other])
      | .ok trimmedList =>
        if n ≠ 0 && intOfUint64 n < (trimmedList.length : Int) then
          if n ≤ trimmedList.length then (.ok (trimmedList.take n), [c, other])
          else (.panicked "runtime error: slice bounds out of range", [c, other])
        else (.ok trimmedList, [c, other])

/-- `hasOnlySetRowAttrs`: true iff the call list is non-empty and contains
only SetRowAttrs() calls. -/
def hasOnlySetRowAttrs (calls : List Call) : Bool :=
  if calls.length = 0 then false
  else calls.all (fun c => c.name = "SetRowAttrs")

/-- The loop body of `needsSlices`: mutation and attribute calls continue,
anything else returns true immediately. -/
def needsSlicesLoop : List Call → Bool
  | [] => false
  | c :: rest =>
    if c.name = "ClearBit" || c.name = "SetBit" || c.name = "SetRowAttrs"
        || c.name = "SetColumnAttrs" then needsSlicesLoop rest
    else true

/-- `needsSlices`: true iff some call requires slice enumeration. -/
def needsSlices (calls : List Call) : Bool :=
  if calls.length = 0 then false
  else needsSlicesLoop calls

/-- Environment for the top-level `Execute` model.  The per-call dispatcher
(`executeCall`), the bulk fast path and the `pql` orientation helpers are
oracles: `Execute` only routes through them, and the claims about `Execute`
quantify over them. -/
structure ExecEnv where
  holder : Holder
  execCall : Call → List Nat → Except String (Option Value)
  bulkSetRowAttrs : List Call → Except String (List (Option Value))
  supportsInverse : Call → Bool
  isInverse : Call → String → String → Bool

/-- The serial per-call loop of `Execute` (step 3): orientation selection
followed by dispatch; `slices` persists across iterations once switched to
the inverse set, as in the source. -/
def executeLoop (env : ExecEnv) (index : String) (ns : Bool)
    (columnLabel : String) (inverseSlices : List Nat) :
    List Call → List Nat → List (Option Value) →
    GoResult (List (Option Value))
  | [], _, acc => .ok acc.reverse
  | c :: rest, slices, acc =>
    let orient : GoResult (List Nat) :=
      if env.supportsInverse c && ns then
        let frame := let s := (argString c "frame").1
                     if s = "" then DefaultFrame else s
        match env.holder.frameFn index frame with
        | none => .err ErrFrameNotFound
        | some f =>
          if env.isInverse c f.rowLabel columnLabel then .ok inverseSlices
          else .ok slices
      else .ok slices
    match orient with
    | .err e => .err e
    | .panicked m => .panicked m
    | .ok slices2 =>
      match env.execCall c slices2 with
      | .error e => .err e
      | .ok v => executeLoop env index ns columnLabel inverseSlices rest slices2 (v :: acc)

/-- `Execute`: verify the index name, enumerate slices when needed (note the
source calls `MaxSlice()` on the result of `Holder.Index` before its nil
check, a nil dereference when the index is missing), take the bulk
SetRowAttrs fast path when the whole query is SetRowAttrs, else run the
serial per-call loop. -/
def Execute (env : ExecEnv) (index : String) (calls : List Call)
    (slices : List Nat) (opt : ExecOptions) : GoResult (List (Option Value)) :=
  if index = "" then .err ErrIndexRequired
  else
    let _ := opt
    let ns := needsSlices calls
    let enum : GoResult (List Nat × List Nat × String) :=
      if slices.length = 0 && ns then
        match env.holder.indexFn index with
        | none => .panicked "runtime error: invalid memory address or nil pointer dereference"
        | some idx =>
          .ok (List.range (idx.maxSlice + 1), List.range (idx.maxInverseSlice + 1),
               idx.columnLabel)
      else .ok (slices, [], DefaultColumnLabel)
    match enum with
    | .err e => .err e
    | .panicked m => .panicked m
    | .ok (slices2, inverseSlices, columnLabel) =>
      if hasOnlySetRowAttrs calls then
        match env.bulkSetRowAttrs calls with
        | .error e => .err e
        | .ok results => .ok results
      else executeLoop env index ns columnLabel inverseSlices calls slices2 []

/-- Cluster membership and slice ownership (`Cluster.Nodes` and
`Cluster.FragmentNodes(index, slice)`, index fixed): the ordered replica
set of a slice, primary first. -/
structure Cluster where
  nodes : List Node
  fragmentNodes : Nat → List Node

/-- The per-replica loop shared by `executeSetBitView` and
`executeClearBitView`.  `localMut` is the result of the local
`frame.SetBit`/`ClearBit`; `remoteRes` the boolean decoded from a
forwarded single-call query (`res[0].(bool)`).  A local `true` is OR-ed
into `ret`, while a remote response *overwrites* `ret`
(`ret = res[0].(bool)` in the source).  The second component records the
peer nodes a query was forwarded to. -/
def mutateViewLoop (host : String) (opt : ExecOptions)
    (localMut : Except String Bool) (remoteRes : Node → Except String Bool) :
    List Node → Bool → Except String Bool × List Node
  | [], ret => (.ok ret, [])
  | node :: rest, ret =>
    if node.host = host then
      match localMut with
      | .error e => (.error e, [])
      | .ok val =>
          mutateViewLoop host opt localMut remoteRes rest (if val then true else ret)
    else if opt.Remote then
      mutateViewLoop host opt localMut remoteRes rest ret
    else
      match remoteRes node with
      | .error e => (.error e, [node])
      | .ok b =>
        let r := mutateViewLoop host opt localMut remoteRes rest b
        (r.1, node :: r.2)

/-- `executeSetBitView`: replica loop over `FragmentNodes(index, colID /
SliceWidth)` with `ret` seeded false. -/
def executeSetBitView (host : String) (cl : Cluster) (opt : ExecOptions)
    (fSetBit : Except String Bool) (remoteRes : Node → Except String Bool)
    (colID : Nat) : Except String Bool × List Node :=
  mutateViewLoop host opt fSetBit remoteRes
    (cl.fragmentNodes (colID / SliceWidth)) false

/-- `executeClearBitView`: textually the same loop as `executeSetBitView`
with `frame.ClearBit` in place of `frame.SetBit`. -/
def executeClearBitView (host : String) (cl : Cluster) (opt : ExecOptions)
    (fClearBit : Except String Bool) (remoteRes : Node → Except String Bool)
    (colID : Nat) : Except String Bool × List Node :=
  mutateViewLoop host opt fClearBit remoteRes
    (cl.fragmentNodes (colID / SliceWidth)) false

/-- `Nodes.FilterHost`: all cluster nodes other than the local host. -/
def filterHost (nodes : List Node) (host : String) : List Node :=
  nodes.filter (fun n => n.host ≠ host)

/-- First error received from the concurrent peer fan-out (arrival order
modelled as node order). -/
def firstError (res : Node → Except String Unit) : List Node → Except String Unit
  | [] => .ok ()
  | n :: rest =>
    match res n with
    | .error e => .error e
    | .ok _ => firstError res rest

/-- `executeSetRowAttrs`: resolve the frame, read the row id from the row
label, strip the reserved keys, write attributes, and—unless `Remote`—fan
the same call out to every other cluster node (recorded in the second
component). -/
def executeSetRowAttrs (host : String) (clusterNodes : List Node)
    (frameFn : String → Option Frame)
    (setAttrs : String → Nat → List (String × Value) → Except String Unit)
    (execNode : Node → Except String Unit)
    (c : Call) (opt : ExecOptions) : Except String Unit × List Node :=
  match argString c "frame" with
  | (_, false) => (.error "SetRowAttrs() frame required", [])
  | (frameName, true) =>
    match frameFn frameName with
    | none => (.error ErrFrameNotFound, [])
    | some frame =>
      match c.UintArg frame.rowLabel with
      | .error e => (.error ("reading SetRowAttrs() row: " ++ e), [])
      | .ok none => (.error "SetRowAttrs() row field required", [])
      | .ok (some rowID) =>
        match setAttrs frameName rowID
            (removeArg (removeArg c.args "frame") frame.rowLabel) with
        | .error e => (.error e, [])
        | .ok _ =>
          if opt.Remote then (.ok (), [])
          else
            let nodes := filterHost clusterNodes host
            (firstError execNode nodes, nodes)

/-- Column-id resolution of `executeSetColumnAttrs`: the `id` argument is
preferred; an error or absence falls through to the column label. -/
def resolveColumnArg (c : Call) (columnLabel : String) :
    Except String (Nat × String) :=
  match c.UintArg "id" with
  | .ok (some i) => .ok (i, "id")
  | _ =>
    match c.UintArg columnLabel with
    | .ok (some col) => .ok (col, columnLabel)
    | _ => .error "reading SetColumnAttrs() id/columnLabel errs"

/-- `executeSetColumnAttrs`: derive the column id from `id` or the column
label (preferring `id`), strip the key used, write attributes, and—unless
`Remote`—fan the same call out to every other cluster node. -/
def executeSetColumnAttrs (host : String) (clusterNodes : List Node)
    (idx : Option Index)
    (setAttrs : Nat → List (String × Value) → Except String Unit)
    (execNode : Node → Except String Unit)
    (c : Call) (opt : ExecOptions) : Except String Unit × List Node :=
  match idx with
  | none => (.error ErrIndexNotFound, [])
  | some idx =>
    match resolveColumnArg c idx.columnLabel with
    | .error e => (.error e, [])
    | .ok (id, colName) =>
      match setAttrs id (removeArg c.args colName) with
      | .error e => (.error e, [])
      | .ok _ =>
        if opt.Remote then (.ok (), [])
        else
          let nodes := filterHost clusterNodes host
          (firstError execNode nodes, nodes)

/-- One response on the mapReduce channel: the node it came from, the slice
group it covers, and its result (`nil, nil` modelled as `.ok none`). -/
structure MapResp (α : Type) where
  node : Node
  slices : List Nat
  res : Except String (Option α)

/-- External behaviors feeding one mapReduce run: the per-slice map
function, and the result a peer returns for a forwarded (call, nodeSlices)
request. -/
structure MRWorld (α : Type) where
  mapFn : Nat → Except String α
  remoteExec : Node → List Nat → Except String (Option α)

/-- Append `slice` to `node`'s group, creating the group at the end on
first use (`m[node] = append(m[node], slice)` over an insertion-ordered
association list standing for the Go map). -/
def upsertGroup : List (Node × List Nat) → Node → Nat → List (Node × List Nat)
  | [], node, slice => [(node, [slice])]
  | (k, g) :: rest, node, slice =>
    if k = node then (k, g ++ [slice]) :: rest
    else (k, g) :: upsertGroup rest node slice

/-- `slicesByNode`: assign each slice to its first replica that is still a
candidate; `errSliceUnavailable` when some slice has none. -/
def slicesByNode (cl : Cluster) (candidates : List Node) :
    List Nat → List (Node × List Nat) → Except String (List (Node × List Nat))
  | [], m => .ok m
  | slice :: rest, m =>
    match (cl.fragmentNodes slice).find? (fun nd => decide (nd ∈ candidates)) with
    | some nd => slicesByNode cl candidates rest (upsertGroup m nd slice)
    | none => .error errSliceUnavailable

/-- `mapperLocal`: per-slice map results reduced as they arrive (arrival
order modelled as slice order), first error aborts.  The accumulator
starts as the nil interface (`none`). -/
def mapperLocal {α : Type} (w : MRWorld α)
    (reduceFn : Option α → Option α → Option α) :
    List Nat → Option α → Except String (Option α)
  | [], acc => .ok acc
  | slice :: rest, acc =>
    match w.mapFn slice with
    | .error e => .error e
    | .ok v => mapperLocal w reduceFn rest (reduceFn acc (some v))

/-- The response produced by the goroutine `mapper` spawns for one
(node, sliceGroup): local groups run `mapperLocal`; remote groups are
forwarded unless `opt.Remote`, in which case nothing runs and the response
carries the nil result. -/
def mkMapResp {α : Type} (w : MRWorld α) (host : String) (remoteOpt : Bool)
    (reduceFn : Option α → Option α → Option α) (p : Node × List Nat) :
    MapResp α :=
  { node := p.1, slices := p.2,
    res := if p.1.host = host then mapperLocal w reduceFn p.2 none
           else if !remoteOpt then w.remoteExec p.1 p.2
           else .ok none }

/-- The outbound peer requests `mapper` issues: one per non-local group,
suppressed when `opt.Remote`. -/
def mapperReqs (host : String) (remoteOpt : Bool) :
    List (Node × List Nat) → List (Node × List Nat)
  | [] => []
  | p :: rest =>
    if p.1.host = host then mapperReqs host remoteOpt rest
    else if !remoteOpt then p :: mapperReqs host remoteOpt rest
    else mapperReqs host remoteOpt rest

/-- `mapper`: group the slices by node, then spawn one response per group
(collected here in planning order), recording the forwarded requests. -/
def mapper {α : Type} (w : MRWorld α) (host : String) (remoteOpt : Bool)
    (cl : Cluster) (reduceFn : Option α → Option α → Option α)
    (candidates : List Node) (slices : List Nat) :
    Except String (List (MapResp α) × List (Node × List Nat)) :=
  match slicesByNode cl candidates slices [] with
  | .error e => .error e
  | .ok groups =>
      .ok (groups.map (mkMapResp w host remoteOpt reduceFn),
           mapperReqs host remoteOpt groups)

/-- `Nodes.Filter`: all nodes except the given one. -/
def nodesFilter (nodes : List Node) (n : Node) : List Node :=
  nodes.filter (fun m => m ≠ n)

/-- Outcome of the mapReduce reduction loop.  `blocked` is the channel
receive with no outstanding producers: the source loop checks completion
only *after* receiving a response, so it never returns on its own.
`fuelOut` only marks model fuel exhaustion, never source behavior. -/
inductive MROut (α : Type) where
  | ok (v : Option α)
  | err (msg : String)
  | blocked
  | fuelOut

/-- The reduction loop of `mapReduce` (step 4): on an error response,
remove the failing node from the candidate set, re-plan exactly that
response's slice group against the remaining candidates, and surface the
*original* node error when re-planning reports `errSliceUnavailable`; on
success, reduce and advance the completion counter by the size of the
response's slice group, returning once it reaches the total.  The queue is
the pending channel contents in planning order (one admissible schedule);
the second component records forwarded peer requests. -/
def reduceLoop {α : Type} (w : MRWorld α) (host : String) (remoteOpt : Bool)
    (cl : Cluster) (reduceFn : Option α → Option α → Option α) (total : Nat) :
    Nat → List Node → List (MapResp α) → Option α → Nat →
    MROut α × List (Node × List Nat)
  | _, _, [], _, _ => (.blocked, [])
  | 0, _, _ :: _, _, _ => (.fuelOut, [])
  | fuel + 1, candidates, resp :: rest, acc, done =>
    match resp.res with
    | .error msg =>
      let remaining := nodesFilter candidates resp.node
      match mapper w host remoteOpt cl reduceFn remaining resp.slices with
      | .error e =>
        if e = errSliceUnavailable then (.err msg, []) else (.err e, [])
      | .ok (newResps, reqs) =>
        let r := reduceLoop w host remoteOpt cl reduceFn total fuel remaining
                   (rest ++ newResps) acc done
        (r.1, reqs ++ r.2)
    | .ok v =>
      let acc2 := reduceFn acc v
      let done2 := done + resp.slices.length
      if total ≤ done2 then (.ok acc2, [])
      else reduceLoop w host remoteOpt cl reduceFn total fuel candidates rest acc2 done2

/-- `mapReduce`: candidates are all cluster nodes at the coordinator, but
only the local node when `opt.Remote` (anti-loop); then map across the
primary owners and run the reduction loop.  `NodeByHost` returning nil is
modelled as the empty candidate list, which is observationally the same
for planning. -/
def mapReduce {α : Type} (w : MRWorld α) (host : String) (cl : Cluster)
    (slices : List Nat) (opt : ExecOptions)
    (reduceFn : Option α → Option α → Option α) (fuel : Nat) :
    MROut α × List (Node × List Nat) :=
  let candidates :=
    if !opt.Remote then cl.nodes
    else match cl.nodes.find? (fun n => n.host = host) with
         | some n => [n]
         | none => []
  match mapper w host opt.Remote cl reduceFn candidates slices with
  | .error e => (.err e, [])
  | .ok (resps, reqs) =>
    let r := reduceLoop w host opt.Remote cl reduceFn slices.length fuel
               candidates resps none 0
    (r.1, reqs ++ r.2)

/- ------------------------------------------------------------------ -/
/- Concrete fixtures used by the claim theorems and witnesses.         -/
/- ------------------------------------------------------------------ -/

def nodeA : Node := ⟨"a"⟩

def nodeB : Node := ⟨"b"⟩

/-- A two-node cluster where every slice is replicated on both nodes,
primary `a` first. -/
def clusterAB : Cluster := { nodes := [nodeA, nodeB], fragmentNodes := fun _ => [nodeA, nodeB] }

/-- A one-node cluster owning every slice. -/
def clusterA : Cluster := { nodes := [nodeA], fragmentNodes := fun _ => [nodeA] }

/-- A frame with a day quantum used by the Range fixtures. -/
def frameT : Frame := { rowLabel := "row", inverseEnabled := false, timeQuantum := "D" }

def holderT : Holder :=
  { indexFn := fun _ => some { columnLabel := "col", maxSlice := 0, maxInverseSlice := 0 },
    frameFn := fun _ _ => some frameT,
    fragmentFn := fun _ _ _ _ => none }

/-- Environment for the Range fixtures: only the literal start/end strings
parse; the empty string (the zero value of an absent argument) does not,
matching `time.Parse` of `""`. -/
def envT : SliceEnv :=
  { holder := holderT, index := "i",
    parseTime := fun s => if s = "2017-01-01T00:00" then some 0
                          else if s = "2017-01-03T00:00" then some 2 else none,
    viewsByTimeRange := fun _ _ _ => ["d1", "d2"] }

def rangeCallNoEnd : Call :=
  .mk "Range" [("frame", .str "t"), ("row", .uint 9), ("start", .str "2017-01-01T00:00")] []

/- ------------------------------------------------------------------ -/
/- Claim theorems.                                                     -/
/- ------------------------------------------------------------------ -/

/-- C1: the claim says a SetBit/ClearBit coordinator returns the logical OR
of all per-replica `changed` results.  The source instead *assigns* each
remote response to `ret` (`ret = res[0].(bool)`), so a later remote false
erases an earlier local true.  Failing input: replica set `[local a,
remote b]`, the local update returns `changed = true`, the remote replica
responds `changed = false`; the OR is `true` but both SetBit and ClearBit
return `false`. -/
theorem C1_remote_response_overwrites_changed :
    (executeSetBitView "a" clusterAB ⟨false⟩ (.ok true) (fun _ => .ok false) 5).1
        = .ok false ∧
    (executeClearBitView "a" clusterAB ⟨false⟩ (.ok true) (fun _ => .ok false) 5).1
        = .ok false ∧
    (true || false) = true := by
  exact ⟨rfl, rfl, rfl⟩

/-- C5: the claim says Range with a parseable `start` and an absent `end`
fails with the "Range() end time required" error.  The source reads `end`
with the `ok` flag left over from the `start` assertion, so the presence
check never fires; the absent argument becomes the empty string and the
call instead fails with "cannot parse Range() end time". -/
theorem C5_missing_end_wrong_error :
    executeRangeSlice envT rangeCallNoEnd 0 = .error "cannot parse Range() end time" ∧
    "cannot parse Range() end time" ≠ "Range() end time required" := by
  exact ⟨rfl, by decide⟩

/-- C6: the claim says `ids` validation is total and errors on a
heterogeneous list containing a non-signed-integer element.  The source
coerces `[]interface{}` with the unchecked assertion `v[i].(int64)`, which
panics on such an element; the all-int64 and non-list shapes behave as
claimed (coerced element-wise, resp. an error). -/
theorem C6_heterogeneous_ids_panic :
    validateCallArgs (.mk "TopN" [("ids", .anyList [.int 3, .str "x"])] [])
        = .panicked "interface conversion: interface is not int64" ∧
    validateCallArgs (.mk "TopN" [("ids", .anyList [.int 3, .int 5])] [])
        = .ok (.mk "TopN" [("ids", .intList [3, 5])] []) ∧
    validateCallArgs (.mk "TopN" [("ids", .str "x")] [])
        = .err "invalid call.Args[ids]" := by
  exact ⟨rfl, rfl, rfl⟩

/-- C9: the claim says mapReduce on an empty slice list terminates with the
reducer's zero.  The source's reduction loop checks completion only after
receiving a response; with no slices no goroutine is spawned, so the
channel receive blocks until the caller cancels the context — modelled as
the `blocked` outcome, for every world, cluster, option and fuel. -/
theorem C9_mapReduce_empty_slices_blocks {α : Type} (w : MRWorld α) (host : String)
    (cl : Cluster) (opt : ExecOptions)
    (reduceFn : Option α → Option α → Option α) (fuel : Nat) :
    mapReduce w host cl [] opt reduceFn fuel = (MROut.blocked, []) := by
  simp [mapReduce, mapper, slicesByNode, reduceLoop, mapperReqs]

/-- C7: with an empty children list, per-slice Union yields the empty
bitmap while Intersect and Difference are user errors, for every
environment, slice and argument list. -/
theorem C7_zero_children_outcomes (env : SliceEnv) (slice : Nat)
    (args : List (String × Value)) :
    executeBitmapCallSlice env slice (.mk "Union" args []) = .ok NewBitmap ∧
    executeBitmapCallSlice env slice (.mk "Intersect" args []) =
      .error "empty Intersect query is currently not supported" ∧
    executeBitmapCallSlice env slice (.mk "Difference" args []) =
      .error "empty Difference query is currently not supported" := by
  exact ⟨rfl, rfl, rfl⟩

/-- C10: Execute with zero calls on a non-empty index returns the empty
result list and no error: `hasOnlySetRowAttrs` and `needsSlices` are both
false for the empty call list, so neither the bulk fast path nor slice
enumeration runs and the serial loop is empty. -/
theorem C10_execute_zero_calls (env : ExecEnv) (index : String)
    (slices : List Nat) (opt : ExecOptions) (h : index ≠ "") :
    Execute env index [] slices opt = .ok [] ∧
    hasOnlySetRowAttrs [] = false ∧ needsSlices [] = false := by
  refine ⟨?_, rfl, rfl⟩
  simp [Execute, h, needsSlices, hasOnlySetRowAttrs, executeLoop]

def trivialExecEnv : ExecEnv :=
  { holder := holderT,
    execCall := fun _ _ => .ok none,
    bulkSetRowAttrs := fun _ => .ok [],
    supportsInverse := fun _ => false,
    isInverse := fun _ _ _ => false }

theorem C10_execute_zero_calls_witness :
    Execute trivialExecEnv "i" [] [] ⟨false⟩ = .ok [] ∧
    hasOnlySetRowAttrs [] = false ∧ needsSlices [] = false :=
  C10_execute_zero_calls trivialExecEnv "i" [] ⟨false⟩ (by decide)

theorem mutateViewLoop_remote_no_requests (host : String)
    (localMut : Except String Bool) (remoteRes : Node → Except String Bool)
    (nodes : List Node) :
    ∀ ret, (mutateViewLoop host ⟨true⟩ localMut remoteRes nodes ret).2 = [] := by
  induction nodes with
  | nil => intro ret; rfl
  | cons nd rest ih =>
    intro ret
    by_cases h : nd.host = host
    · simp only [mutateViewLoop, h, if_pos]
      cases localMut with
      | error e => rfl
      | ok val => exact ih _
    · simp only [mutateViewLoop, h, if_neg, if_false]
      exact ih _

theorem mapperReqs_remote (host : String) :
    ∀ groups, mapperReqs host true groups = [] := by
  intro groups
  induction groups with
  | nil => rfl
  | cons p rest ih => by_cases h : p.1.host = host <;> simp [mapperReqs, h, ih]

theorem mapper_remote_no_requests {α : Type} (w : MRWorld α) (host : String)
    (cl : Cluster) (reduceFn : Option α → Option α → Option α)
    (cand : List Node) (slices : List Nat)
    (pr : List (MapResp α) × List (Node × List Nat))
    (h : mapper w host true cl reduceFn cand slices = .ok pr) : pr.2 = [] := by
  unfold mapper at h
  cases hsb : slicesByNode cl cand slices [] with
  | error e => rw [hsb] at h; exact absurd h (by simp)
  | ok groups =>
    rw [hsb] at h
    cases h
    exact mapperReqs_remote host groups

theorem reduceLoop_remote_no_requests {α : Type} (w : MRWorld α) (host : String)
    (cl : Cluster) (reduceFn : Option α → Option α → Option α) (total : Nat) :
    ∀ (fuel : Nat) (cand : List Node) (queue : List (MapResp α))
      (acc : Option α) (done : Nat),
      (reduceLoop w host true cl reduceFn total fuel cand queue acc done).2 = [] := by
  intro fuel
  induction fuel with
  | zero =>
    intro cand queue acc done
    cases queue with
    | nil => rfl
    | cons resp rest => rfl
  | succ fuel ih =>
    intro cand queue acc done
    cases queue with
    | nil => rfl
    | cons resp rest =>
      simp only [reduceLoop]
      cases hres : resp.res with
      | error msg =>
        cases hm : mapper w host true cl reduceFn
            (nodesFilter cand resp.node) resp.slices with
        | error e =>
          by_cases he : e = errSliceUnavailable <;> simp [he]
        | ok pr =>
          have hreq := mapper_remote_no_requests w host cl reduceFn _ _ pr hm
          cases pr with
          | mk newResps reqs =>
            simp only at hreq
            subst hreq
            simp [ih]
      | ok v =>
        by_cases hd : total ≤ done + resp.slices.length <;> simp [hd, ih]

theorem setRowAttrs_remote_no_requests (host : String) (clusterNodes : List Node)
    (frameFn : String → Option Frame)
    (setAttrs : String → Nat → List (String × Value) → Except String Unit)
    (execNode : Node → Except String Unit) (c : Call) :
    (executeSetRowAttrs host clusterNodes frameFn setAttrs execNode c ⟨true⟩).2 = [] := by
  unfold executeSetRowAttrs
  repeat' split
  all_goals first
    | rfl
    | (exfalso; simp_all)

theorem setColumnAttrs_remote_no_requests (host : String) (clusterNodes : List Node)
    (idx : Option Index)
    (setAttrs : Nat → List (String × Value) → Except String Unit)
    (execNode : Node → Except String Unit) (c : Call) :
    (executeSetColumnAttrs host clusterNodes idx setAttrs execNode c ⟨true⟩).2 = [] := by
  unfold executeSetColumnAttrs
  repeat' split
  all_goals first
    | rfl
    | (exfalso; simp_all)

/-- C2: with `ExecOptions.Remote = true` the executor issues no outbound
peer request, for every world, cluster and call: mapReduce plans only
against the local node and its mapper/retry loop forwards nothing, the
SetBit/ClearBit replica loops skip every non-local replica, and the
SetRowAttrs/SetColumnAttrs fan-outs return before contacting peers. -/
theorem C2_remote_suppresses_fanout :
    (∀ (α : Type) (w : MRWorld α) (host : String) (cl : Cluster)
       (slices : List Nat) (reduceFn : Option α → Option α → Option α) (fuel : Nat),
       (mapReduce w host cl slices ⟨true⟩ reduceFn fuel).2 = []) ∧
    (∀ (host : String) (cl : Cluster) (f : Except String Bool)
       (remoteRes : Node → Except String Bool) (colID : Nat),
       (executeSetBitView host cl ⟨true⟩ f remoteRes colID).2 = [] ∧
       (executeClearBitView host cl ⟨true⟩ f remoteRes colID).2 = []) ∧
    (∀ (host : String) (clusterNodes : List Node) (frameFn : String → Option Frame)
       (setAttrs : String → Nat → List (String × Value) → Except String Unit)
       (execNode : Node → Except String Unit) (c : Call),
       (executeSetRowAttrs host clusterNodes frameFn setAttrs execNode c ⟨true⟩).2 = []) ∧
    (∀ (host : String) (clusterNodes : List Node) (idx : Option Index)
       (setAttrs : Nat → List (String × Value) → Except String Unit)
       (execNode : Node → Except String Unit) (c : Call),
       (executeSetColumnAttrs host clusterNodes idx setAttrs execNode c ⟨true⟩).2 = []) := by
  refine ⟨?_, ?_, ?_, ?_⟩
  · intro α w host cl slices reduceFn fuel
    simp only [mapReduce]
    split
    · rfl
    · next resps reqs heq =>
      have hreq := mapper_remote_no_requests w host cl reduceFn _ _ ⟨resps, reqs⟩ heq
      simp only at hreq
      subst hreq
      simp [reduceLoop_remote_no_requests]
  · intro host cl f remoteRes colID
    exact ⟨mutateViewLoop_remote_no_requests host f remoteRes _ false,
           mutateViewLoop_remote_no_requests host f remoteRes _ false⟩
  · intro host clusterNodes frameFn setAttrs execNode c
    exact setRowAttrs_remote_no_requests host clusterNodes frameFn setAttrs execNode c
  · intro host clusterNodes idx setAttrs execNode c
    exact setColumnAttrs_remote_no_requests host clusterNodes idx setAttrs execNode c

theorem upsertGroup_fst_sub (n : Node) (s : Nat) :
    ∀ (m : List (Node × List Nat)) (x : Node),
      x ∈ (upsertGroup m n s).map Prod.fst → x = n ∨ x ∈ m.map Prod.fst := by
  intro m
  induction m with
  | nil =>
    intro x hx
    simp [upsertGroup] at hx
    exact Or.inl hx
  | cons kg rest ih =>
    rcases kg with ⟨k, g⟩
    intro x hx
    by_cases hk : k = n
    · simp only [upsertGroup, if_pos hk, List.map_cons, List.mem_cons] at hx
      rcases hx with rfl | hx
      · exact Or.inr (by simp)
      · exact Or.inr (by simp [hx])
    · simp only [upsertGroup, if_neg hk, List.map_cons, List.mem_cons] at hx
      rcases hx with rfl | hx
      · exact Or.inr (by simp)
      · rcases ih x hx with h | h
        · exact Or.inl h
        · exact Or.inr (by simp [h])

theorem upsertGroup_flat_perm (n : Node) (s : Nat) :
    ∀ m : List (Node × List Nat),
      ((upsertGroup m n s).flatMap Prod.snd).Perm (m.flatMap Prod.snd ++ [s]) := by
  intro m
  induction m with
  | nil => simp [upsertGroup]
  | cons kg rest ih =>
    rcases kg with ⟨k, g⟩
    by_cases hk : k = n
    · simp only [upsertGroup, if_pos hk, List.flatMap_cons, List.append_assoc]
      exact List.Perm.append_left g List.perm_append_comm
    · simp only [upsertGroup, if_neg hk, List.flatMap_cons, List.append_assoc]
      exact List.Perm.append_left g ih

theorem slicesByNode_ok_mem (cl : Cluster) (cand : List Node) :
    ∀ (slices : List Nat) (m m2 : List (Node × List Nat)),
      slicesByNode cl cand slices m = .ok m2 →
      ∀ p ∈ m2, p.1 ∈ cand ∨ p.1 ∈ m.map Prod.fst := by
  intro slices
  induction slices with
  | nil =>
    intro m m2 h p hp
    simp only [slicesByNode] at h
    cases h
    exact Or.inr (List.mem_map_of_mem Prod.fst hp)
  | cons s rest ih =>
    intro m m2 h p hp
    simp only [slicesByNode] at h
    cases hf : (cl.fragmentNodes s).find? (fun nd => decide (nd ∈ cand)) with
    | none => rw [hf] at h; exact absurd h (by simp)
    | some nd =>
      rw [hf] at h
      have h2 := List.find?_some hf
      have hnd : nd ∈ cand := by simpa using h2
      rcases ih (upsertGroup m nd s) m2 h p hp with hc | hm
      · exact Or.inl hc
      · rcases upsertGroup_fst_sub nd s m p.1 hm with rfl | hm2
        · exact Or.inl hnd
        · exact Or.inr hm2

theorem slicesByNode_ok_perm (cl : Cluster) (cand : List Node) :
    ∀ (slices : List Nat) (m m2 : List (Node × List Nat)),
      slicesByNode cl cand slices m = .ok m2 →
      (m2.flatMap Prod.snd).Perm (m.flatMap Prod.snd ++ slices) := by
  intro slices
  induction slices with
  | nil =>
    intro m m2 h
    simp only [slicesByNode] at h
    cases h
    simp
  | cons s rest ih =>
    intro m m2 h
    simp only [slicesByNode] at h
    cases hf : (cl.fragmentNodes s).find? (fun nd => decide (nd ∈ cand)) with
    | none => rw [hf] at h; exact absurd h (by simp)
    | some nd =>
      rw [hf] at h
      have h1 := ih (upsertGroup m nd s) m2 h
      have h2 := (upsertGroup_flat_perm nd s m).append_right rest
      have h3 : (m.flatMap Prod.snd ++ [s]) ++ rest = m.flatMap Prod.snd ++ (s :: rest) := by
        simp [List.append_assoc]
      exact h1.trans (by rw [h3] at h2; exact h2)

/-- C3: when a map response carries an error, the reduction loop (i) drops
the failing node from the candidate set and re-plans exactly that
response's slice group against the remaining candidates — every re-planned
group belongs to a remaining candidate (so never the failing node) and the
re-planned groups cover exactly the failed group's slices — and (ii) when
that re-planning reports `errSliceUnavailable`, the loop surfaces the
original node error `msg`, not `errSliceUnavailable`. -/
theorem C3_error_replan {α : Type} (w : MRWorld α) (host : String)
    (remoteOpt : Bool) (cl : Cluster)
    (reduceFn : Option α → Option α → Option α) (total fuel : Nat)
    (candidates : List Node) (rest : List (MapResp α)) (acc : Option α)
    (done : Nat) (n : Node) (gs : List Nat) (msg : String) :
    (slicesByNode cl (nodesFilter candidates n) gs [] =
        .error errSliceUnavailable →
      reduceLoop w host remoteOpt cl reduceFn total (fuel + 1) candidates
          (⟨n, gs, .error msg⟩ :: rest) acc done = (.err msg, [])) ∧
    (∀ groups,
      slicesByNode cl (nodesFilter candidates n) gs [] = .ok groups →
      (∀ p ∈ groups,
          p.1 ∈ nodesFilter candidates n ∧ p.1 ≠ n) ∧
      (groups.flatMap Prod.snd).Perm gs ∧
      reduceLoop w host remoteOpt cl reduceFn total (fuel + 1) candidates
          (⟨n, gs, .error msg⟩ :: rest) acc done =
        ((reduceLoop w host remoteOpt cl reduceFn total fuel
            (nodesFilter candidates n)
            (rest ++ groups.map (mkMapResp w host remoteOpt reduceFn)) acc done).1,
         mapperReqs host remoteOpt groups ++
           (reduceLoop w host remoteOpt cl reduceFn total fuel
              (nodesFilter candidates n)
              (rest ++ groups.map (mkMapResp w host remoteOpt reduceFn)) acc done).2)) := by
  constructor
  · intro h
    simp [reduceLoop, mapper, h, errSliceUnavailable]
  · intro groups h
    refine ⟨?_, ?_, ?_⟩
    · intro p hp
      have hmem := slicesByNode_ok_mem cl (nodesFilter candidates n)
          gs [] groups h p hp
      simp only [List.map_nil, List.not_mem_nil, or_false] at hmem
      refine ⟨hmem, ?_⟩
      have h2 : p.1 ∈ candidates ∧ ¬p.1 = n := by
        simpa [nodesFilter, List.mem_filter] using hmem
      exact h2.2
    · have := slicesByNode_ok_perm cl (nodesFilter candidates n)
          gs [] groups h
      simpa using this
    · simp [reduceLoop, mapper, h]

def mrWorldW : MRWorld Nat :=
  { mapFn := fun _ => .ok 0, remoteExec := fun _ _ => .ok none }

def mrReduceW : Option Nat → Option Nat → Option Nat := fun _ v => v

theorem C3_error_replan_witness :
    reduceLoop mrWorldW "a" false clusterA mrReduceW 1 (3 + 1) [nodeA]
        [⟨nodeA, [7], .error "boom"⟩] none 0 = (.err "boom", []) ∧
    ([((nodeB : Node), ([7] : List Nat))].flatMap Prod.snd).Perm [7] ∧
    (nodeB ∈ nodesFilter [nodeA, nodeB] nodeA ∧ nodeB ≠ nodeA) := by
  refine ⟨?_, ?_, ?_⟩
  · exact (C3_error_replan mrWorldW "a" false clusterA mrReduceW 1 3 [nodeA]
      [] none 0 nodeA [7] "boom").1 rfl
  · exact ((C3_error_replan mrWorldW "a" false clusterAB mrReduceW 1 3
      [nodeA, nodeB] [] none 0 nodeA [7] "boom").2 [(nodeB, [7])] rfl).2.1
  · exact ((C3_error_replan mrWorldW "a" false clusterAB mrReduceW 1 3
      [nodeA, nodeB] [] none 0 nodeA [7] "boom").2 [(nodeB, [7])] rfl).1
      (nodeB, [7]) (by simp)

/-- Phase-1 results without an `ids` restriction, exact per-row counts once
`ids` is set: a concrete `executeTopNSlices` behavior for the C4 evidence. -/
def topNOracleW : Call → Except String (List Pair) := fun q =>
  match q.arg "ids" with
  | some _ => .ok [⟨2, 9⟩, ⟨1, 7⟩, ⟨3, 3⟩]
  | none => .ok [⟨1, 5⟩, ⟨2, 4⟩]

def topNCallW : Call := .mk "TopN" [("n", .uint 2)] []

/-- TopN with no `n` argument: `UintArg` yields `ok = false` and `n`
defaults to 0. -/
def topNCall0 : Call := .mk "TopN" [] []

/-- TopN with the int64 argument `n = -1`, which `UintArg` converts to the
uint64 value 2^64 - 1. -/
def topNCallNeg : Call := .mk "TopN" [("n", .int (-1))] []

/-- C4: the claimed truncation rule ("truncate to n exactly when n != 0 and
the phase-2 result has more than n pairs; n = 0 means no truncation")
holds for in-range n — shown here by a truncating run (n = 2 over 3
pairs), a phase-2-skipping Remote run, and an untruncated n = 0 run — but
the source guard compares the wrapping conversion `int(n)` with the list
length: for n ≥ 2^63, e.g. the argument n = -1 read as 2^64 - 1, the guard
fires although the phase-2 result has fewer than n pairs, and
`trimmedList[0:n]` panics on its bounds check instead of returning the
untruncated list the claim requires. -/
theorem C4_topn_int_wrap_truncation_panic :
    executeTopN topNOracleW ⟨false⟩ topNCallW
        = (.ok [⟨2, 9⟩, ⟨1, 7⟩],
           [topNCallW, topNCallW.setArg "ids" (.uintList [1, 2])]) ∧
    executeTopN topNOracleW ⟨true⟩ topNCallW = (.ok [⟨1, 5⟩, ⟨2, 4⟩], [topNCallW]) ∧
    executeTopN topNOracleW ⟨false⟩ topNCall0
        = (.ok [⟨2, 9⟩, ⟨1, 7⟩, ⟨3, 3⟩],
           [topNCall0, topNCall0.setArg "ids" (.uintList [1, 2])]) ∧
    toUint64 (-1) = 2 ^ 64 - 1 ∧
    executeTopN topNOracleW ⟨false⟩ topNCallNeg
        = (.panicked "runtime error: slice bounds out of range",
           [topNCallNeg, topNCallNeg.setArg "ids" (.uintList [1, 2])]) ∧
    ([⟨2, 9⟩, ⟨1, 7⟩, ⟨3, 3⟩] : List Pair).length < toUint64 (-1) := by
  exact ⟨rfl, rfl, rfl, by decide, rfl, by decide⟩

theorem rangeFold_all_absent (env : SliceEnv) (frame : String) (slice : Nat)
    (rowID : Nat) :
    ∀ (views : List String) (bm : Bitmap),
      (∀ v ∈ views, env.holder.fragmentFn env.index frame v slice = none) →
      views.foldl
        (fun bm view =>
          match env.holder.fragmentFn env.index frame view slice with
          | none => bm
          | some frag => bm.union (frag.row rowID)) bm = bm := by
  intro views
  induction views with
  | nil => intro bm _; rfl
  | cons v rest ih =>
    intro bm h
    have hv : env.holder.fragmentFn env.index frame v slice = none := h v (by simp)
    simp only [List.foldl_cons, hv]
    exact ih bm (fun u hu => h u (by simp [hu]))

/-- C8: a slice whose fragment is absent from the holder is treated as
empty and never fails: `Bitmap` yields the empty bitmap, a TopN slice
yields the empty pair list, and Range skips every absent time view (all
views absent giving the empty bitmap) — each provided the call's own
argument reading succeeds. -/
theorem C8_missing_fragment_empty :
    (∀ (env : SliceEnv) (c : Call) (slice : Nat) (idx : Index) (f : Frame)
       (rowID : Nat),
       env.holder.indexFn env.index = some idx →
       env.holder.frameFn env.index (frameArgName c) = some f →
       c.UintArg f.rowLabel = .ok (some rowID) →
       c.UintArg idx.columnLabel = .ok none →
       env.holder.fragmentFn env.index (frameArgName c) ViewStandard slice = none →
       executeBitmapSlice env c slice = .ok NewBitmap) ∧
    (∀ (env : SliceEnv) (c : Call) (slice : Nat) (nO thO tanO : Option Nat)
       (rowIDs : List Nat),
       c.UintArg "n" = .ok nO →
       c.UintSliceArg "ids" = .ok rowIDs →
       c.UintArg "threshold" = .ok thO →
       c.UintArg "tanimotoThreshold" = .ok tanO →
       c.children = [] →
       env.holder.fragmentFn env.index (frameArgName c) ViewStandard slice = none →
       executeTopNSlice env c slice = .ok []) ∧
    (∀ (env : SliceEnv) (c : Call) (slice : Nat) (f : Frame) (rowO : Option Nat)
       (ss : String) (t1 t2 : Nat),
       env.holder.frameFn env.index (frameArgName c) = some f →
       c.UintArg f.rowLabel = .ok rowO →
       argString c "start" = (ss, true) →
       env.parseTime ss = some t1 →
       env.parseTime (argString c "end").1 = some t2 →
       f.timeQuantum ≠ "" →
       (∀ v ∈ env.viewsByTimeRange t1 t2 f.timeQuantum,
          env.holder.fragmentFn env.index (frameArgName c) v slice = none) →
       executeRangeSlice env c slice = .ok ⟨[]⟩) := by
  refine ⟨?_, ?_, ?_⟩
  · intro env c slice idx f rowID hidx hfr hrow hcol hfrag
    simp [executeBitmapSlice, hidx, hfr, hrow, hcol, hfrag]
  · intro env c slice nO thO tanO rowIDs hn hids hth htan hch hfrag
    simp [executeTopNSlice, hn, hids, hth, htan, hch, hfrag]
  · intro env c slice f rowO ss t1 t2 hfr hrow hstart hps hpe hq habs
    simp only [executeRangeSlice, hfr, hrow, hstart, Bool.not_true,
      Bool.false_eq_true, if_false, hps, hpe, if_neg hq]
    rw [rangeFold_all_absent env (frameArgName c) slice (rowO.getD 0) _ _ habs]

theorem C8_missing_fragment_empty_witness :
    executeBitmapSlice envT (.mk "Bitmap" [("frame", .str "f"), ("row", .uint 3)] []) 0
        = .ok NewBitmap ∧
    executeTopNSlice envT (.mk "TopN" [("n", .uint 2), ("frame", .str "f")] []) 0
        = .ok [] ∧
    executeRangeSlice envT
        (.mk "Range" [("frame", .str "t"), ("row", .uint 9),
          ("start", .str "2017-01-01T00:00"), ("end", .str "2017-01-03T00:00")] []) 0
        = .ok ⟨[]⟩ := by
  refine ⟨?_, ?_, ?_⟩
  · exact C8_missing_fragment_empty.1 envT
      (.mk "Bitmap" [("frame", .str "f"), ("row", .uint 3)] []) 0
      { columnLabel := "col", maxSlice := 0, maxInverseSlice := 0 } frameT 3
      rfl rfl rfl rfl rfl
  · exact C8_missing_fragment_empty.2.1 envT
      (.mk "TopN" [("n", .uint 2), ("frame", .str "f")] []) 0
      (some 2) none none [] rfl rfl rfl rfl rfl rfl
  · exact C8_missing_fragment_empty.2.2 envT
      (.mk "Range" [("frame", .str "t"), ("row", .uint 9),
        ("start", .str "2017-01-01T00:00"), ("end", .str "2017-01-03T00:00")] []) 0
      frameT (some 9) "2017-01-01T00:00" 0 2
      rfl rfl rfl rfl rfl (by decide) (fun v _ => rfl)

end PilosaExec
